import Mathlib

/-!
Shallow embedding of the forgeflow-core repository (Python/FastAPI) for
verification of its specification.

Modelling conventions:
* Timestamps (`datetime` values) are `Nat`; `t1 < t2` means `t1` is strictly
  earlier than `t2`.
* A Python secret string is represented by its UTF-8 byte encoding, a
  `List Nat` of byte values.  Slicing a valid encoding at a byte boundary and
  decoding with `errors = ignore` drops exactly the trailing incomplete
  character sequence; this is modelled by `ForgeFlow.dropIncompleteTail`.
* bcrypt (via passlib) is modelled as an ideal one-way scheme: hashing wraps
  the input bytes and verification succeeds exactly when the presented bytes
  equal the hashed bytes.  This abstracts the salt and ignores hash
  collisions, and is exact for bcrypt inputs at most 60 bytes long (below
  bcrypt's own 72-byte limit), which both `hash_api_key` and `verify_api_key`
  guarantee by truncation.
* The SQLAlchemy session is an explicit immutable `DB` value; functions that
  commit return the updated `DB`.  Query iteration order is list order.
* FastAPI `HTTPException` outcomes become constructors of explicit result
  types.
-/

namespace ForgeFlow

/-! ### src/app/core/security.py -/

/-- Model of a bcrypt hash value (the `key_hash` column). -/
structure BHash where
  bytes : List Nat
deriving DecidableEq

/-- Ideal model of `pwd_context.hash`: records the input bytes one-way. -/
def bcrypt_hash (input : List Nat) : BHash := ⟨input⟩

/-- Ideal model of `pwd_context.verify`: succeeds iff the presented bytes
equal the bytes that were hashed. -/
def bcrypt_verify (input : List Nat) (h : BHash) : Bool := input == h.bytes

/-- Whether a byte is a UTF-8 continuation byte (0x80..0xBF). -/
def isContinuationByte (b : Nat) : Bool := 128 ≤ b && b < 192

/-- Length of the UTF-8 sequence announced by a lead byte. -/
def utf8SeqLen (b : Nat) : Nat :=
  if b < 128 then 1 else if b < 224 then 2 else if b < 240 then 3 else 4

/-- Number of trailing continuation bytes of a byte list. -/
def trailingContCount (l : List Nat) : Nat :=
  (l.reverse.takeWhile isContinuationByte).length

/-- Effect of `bytes.decode(utf-8, errors=ignore)` followed by re-encoding, on
a prefix of a valid UTF-8 encoding: the trailing incomplete character
sequence, if any, is dropped. -/
def dropIncompleteTail (l : List Nat) : List Nat :=
  let k := trailingContCount l
  match (l.take (l.length - k)).getLast? with
  | none => []
  | some lead => if k + 1 < utf8SeqLen lead then l.take (l.length - k - 1) else l

/-- The shared 60-byte truncation applied by both `hash_api_key` and
`verify_api_key`: if the encoding exceeds 60 bytes, slice to 60 bytes and
decode ignoring the incomplete trailing sequence. -/
def truncate_key (s : List Nat) : List Nat :=
  if s.length > 60 then dropIncompleteTail (s.take 60) else s

/-- Embeds `hash_api_key`: truncate the UTF-8 encoding at the 60-byte safety
margin, then bcrypt-hash. -/
def hash_api_key (api_key : List Nat) : BHash := bcrypt_hash (truncate_key api_key)

/-- Embeds `verify_api_key`: apply the same 60-byte truncation, then
bcrypt-verify against the stored hash. -/
def verify_api_key (plain_key : List Nat) (hashed_key : BHash) : Bool :=
  bcrypt_verify (truncate_key plain_key) hashed_key

/-! ### Data model (src/app/models) -/

/-- Embeds the `User` row (identity).  `password_hash` is unused by the core
flow and omitted. -/
structure User where
  id : Nat
  email : String
deriving DecidableEq

/-- Embeds the `ApiKey` row (credential). -/
structure ApiKey where
  id : Nat
  user_id : Nat
  key_hash : BHash
  last_used_at : Option Nat
  expires_at : Option Nat
deriving DecidableEq

/-- Embeds the `Project` row. -/
structure Project where
  id : Nat
  owner_id : Nat
  name : String
deriving DecidableEq

/-- Embeds the `Flow` row. -/
structure Flow where
  id : Nat
  project_id : Nat
  name : String
  description : Option String
deriving DecidableEq

/-- Embeds the `FlowRunStatus` enum of src/app/models/flow_run.py. -/
inductive FlowRunStatus where
  | pending
  | running
  | completed
  | failed
  | cancelled
deriving DecidableEq

/-- Embeds the `FlowRun` row. -/
structure FlowRun where
  id : Nat
  flow_id : Nat
  status : FlowRunStatus
  created_at : Nat
  started_at : Option Nat
  completed_at : Option Nat
deriving DecidableEq

/-- The persistent store: the five tables, plus the autoincrement counters
that assign fresh primary keys on insert. -/
structure DB where
  users : List User
  api_keys : List ApiKey
  projects : List Project
  flows : List Flow
  flow_runs : List FlowRun
  next_flow_id : Nat
  next_run_id : Nat
deriving DecidableEq

/-! ### src/app/api/auth.py -/

/-- Embeds the expiry test `key.expires_at and key.expires_at < datetime.now(...)`:
expired iff `expires_at` is set and strictly in the past. -/
def isExpired (now : Nat) (k : ApiKey) : Bool :=
  match k.expires_at with
  | some t => t < now
  | none => false

/-- A credential is a valid match for a presented secret: its hash verifies
and it is not expired. -/
def isValidKey (api_key : List Nat) (now : Nat) (k : ApiKey) : Bool :=
  verify_api_key api_key k.key_hash && !(isExpired now k)

/-- Embeds the scan loop of `get_current_user`: walk the credentials in
iteration order; on a hash match that is expired, continue; on a hash match
that passes the expiry check, stamp `last_used_at := now` and stop.  Returns
the updated table and the matched (stamped) credential, if any. -/
def scanKeys (api_key : List Nat) (now : Nat) : List ApiKey → List ApiKey × Option ApiKey
  | [] => ([], none)
  | k :: rest =>
    if verify_api_key api_key k.key_hash then
      if isExpired now k then
        let r := scanKeys api_key now rest
        (k :: r.1, r.2)
      else
        let stamped : ApiKey := { k with last_used_at := some now }
        (stamped :: rest, some stamped)
    else
      let r := scanKeys api_key now rest
      (k :: r.1, r.2)

/-- Outcomes of `get_current_user`: success with the resolved user, or one of
the HTTP failures (401 missing header, 503 database unavailable, 401 invalid
or expired key, 404 user not found). -/
inductive AuthResult where
  | ok (user : User)
  | missingCredential
  | dbUnavailable
  | invalidOrExpired
  | userNotFound
deriving DecidableEq

/-- Embeds `get_current_user`: missing Authorization header fails first with
401; a missing database fails with 503; then the credential scan runs, its
`last_used_at` stamp is committed, and only afterwards is the owning user
looked up (404 if absent).  Returns the result and the store after the
request. -/
def get_current_user (credentials : Option (List Nat)) (db? : Option DB) (now : Nat) :
    AuthResult × Option DB :=
  match credentials with
  | none => (.missingCredential, db?)
  | some api_key =>
    match db? with
    | none => (.dbUnavailable, none)
    | some db =>
      let scanned := scanKeys api_key now db.api_keys
      match scanned.2 with
      | none => (.invalidOrExpired, some db)
      | some matching_key =>
        let db1 : DB := { db with api_keys := scanned.1 }
        match db1.users.find? (fun u => u.id == matching_key.user_id) with
        | none => (.userNotFound, some db1)
        | some user => (.ok user, some db1)

/-! ### src/app/api/flows.py -/

/-- Outcomes of `create_flow`. -/
inductive CreateFlowResult where
  | created (flow : Flow)
  | dbUnavailable
  | notFoundOrForbidden
deriving DecidableEq

/-- Embeds `create_flow`: the project must exist and belong to the
authenticated user (otherwise a uniform 404 "Project not found or access
denied"); on success a new flow row is inserted with a fresh id. -/
def create_flow (project_id : Nat) (name : String) (description : Option String)
    (current_user : User) (db? : Option DB) : CreateFlowResult × Option DB :=
  match db? with
  | none => (.dbUnavailable, none)
  | some db =>
    match db.projects.find? (fun p => p.id == project_id && p.owner_id == current_user.id) with
    | none => (.notFoundOrForbidden, some db)
    | some _project =>
      let flow : Flow := ⟨db.next_flow_id, project_id, name, description⟩
      (.created flow,
       some { db with flows := db.flows ++ [flow], next_flow_id := db.next_flow_id + 1 })

/-- Outcomes of `run_flow`. -/
inductive RunFlowResult where
  | created (run : FlowRun)
  | dbUnavailable
  | notFoundOrForbidden
deriving DecidableEq

/-- Embeds the `Flow`-join-`Project` ownership query of `run_flow`: the first
flow with the requested id whose project belongs to the user. -/
def flowOwnedByUser (db : DB) (flow_id uid : Nat) : Option Flow :=
  db.flows.find? (fun f => f.id == flow_id &&
    db.projects.any (fun p => p.id == f.project_id && p.owner_id == uid))

/-- Embeds `run_flow`: the flow must exist and belong to a project owned by
the authenticated user (otherwise a uniform 404 "Flow not found or access
denied"); on success a new `FlowRun` row is inserted with a fresh id, status
`pending`, `created_at = now` and null `started_at`/`completed_at`. -/
def run_flow (flow_id : Nat) (current_user : User) (db? : Option DB) (now : Nat) :
    RunFlowResult × Option DB :=
  match db? with
  | none => (.dbUnavailable, none)
  | some db =>
    match flowOwnedByUser db flow_id current_user.id with
    | none => (.notFoundOrForbidden, some db)
    | some _flow =>
      let flow_run : FlowRun := ⟨db.next_run_id, flow_id, .pending, now, none, none⟩
      (.created flow_run,
       some { db with flow_runs := db.flow_runs ++ [flow_run],
                      next_run_id := db.next_run_id + 1 })

/-! ### Run lifecycle state machine (spec section 4.2) -/

/-- Whether a run status is terminal. -/
def FlowRunStatus.isTerminal : FlowRunStatus → Bool
  | .completed => true
  | .failed => true
  | .cancelled => true
  | .pending => false
  | .running => false

/-- Failure of an illegal run-state transition. -/
inductive TransitionError where
  | invalidTransition
deriving DecidableEq

/-- Modelled from the spec: the run-state transition operation of section 4.2
is absent from src/ (the repository defines only the `FlowRunStatus` enum and
never triggers a transition).  Per the spec, the legal transitions are
`Pending→Running` (setting `started_at`) and `Running→{Completed, Failed,
Cancelled}` (setting `completed_at`, leaving `started_at` untouched); any
other attempt fails with `InvalidTransition` and, being an error, produces no
updated run. -/
def applyTransition (run : FlowRun) (target : FlowRunStatus) (now : Nat) :
    Except TransitionError FlowRun :=
  match run.status, target with
  | .pending, .running => .ok { run with status := .running, started_at := some now }
  | .running, .completed => .ok { run with status := .completed, completed_at := some now }
  | .running, .failed => .ok { run with status := .failed, completed_at := some now }
  | .running, .cancelled => .ok { run with status := .cancelled, completed_at := some now }
  | _, _ => .error .invalidTransition

/-! ### src/app/api/auth.py: admin key endpoint, and src/main.py seeding -/

/-- Whether a character is stripped by Python `str.strip()`. -/
def isStripChar (c : Char) : Bool := c = ' ' || c = '\t' || c = '\n' || c = '\r'

/-- Model of Python `str.strip()` on the character sequence of a string. -/
def stripChars (l : List Char) : List Char :=
  ((l.dropWhile isStripChar).reverse.dropWhile isStripChar).reverse

/-- Model of Python `str.split("\n")`. -/
def splitLines : List Char → List (List Char)
  | [] => [[]]
  | c :: cs =>
    match splitLines cs with
    | [] => [[]]
    | line :: rest => if c = '\n' then [] :: line :: rest else (c :: line) :: rest

/-- Model of Python `str.startswith(pat)`. -/
def startsWithChars : List Char → List Char → Bool
  | [], _ => true
  | _ :: _, [] => false
  | p :: ps, c :: cs => p == c && startsWithChars ps cs

/-- Remainder of `l` after the prefix `pat`, when `pat` is a prefix. -/
def dropPrefixChars : List Char → List Char → Option (List Char)
  | [], l => some l
  | _ :: _, [] => none
  | p :: ps, c :: cs => if p == c then dropPrefixChars ps cs else none

/-- Fuel-driven worker for `removeAllChars`; the fuel bounds the number of
steps by the input length. -/
def removeAllCharsAux (pat : List Char) : Nat → List Char → List Char
  | _, [] => []
  | 0, l => l
  | fuel + 1, c :: cs =>
    match dropPrefixChars pat (c :: cs) with
    | some rest =>
      match pat with
      | [] => c :: removeAllCharsAux pat fuel cs
      | _ :: _ => removeAllCharsAux pat fuel rest
    | none => c :: removeAllCharsAux pat fuel cs

/-- Model of Python `str.replace(pat, "")`: delete every occurrence of `pat`. -/
def removeAllChars (pat l : List Char) : List Char :=
  removeAllCharsAux pat l.length l

/-- The "API Key:" marker scanned for in the seed file. -/
def apiKeyMarker : List Char := ['A', 'P', 'I', ' ', 'K', 'e', 'y', ':']

/-- The "Email:" marker scanned for in the seed file. -/
def emailMarker : List Char := ['E', 'm', 'a', 'i', 'l', ':']

/-- The file content written by `seed_admin_user` when it issues the admin
credential (both to /tmp and to the project root):
"Email: \x7bemail\x7d\nAPI Key: \x7bkey\x7d\n". -/
def seedKeyFileContent (email api_key : String) : List Char :=
  emailMarker ++ (' ' :: email.data) ++ ('\n' :: apiKeyMarker) ++ (' ' :: api_key.data) ++ ['\n']

/-- Outcomes of `get_admin_api_key`: the plaintext key re-served from the
seed file, a database-only placeholder (no plaintext available), or 404. -/
inductive AdminKeyResult where
  | fromFile (email api_key : String)
  | fromDatabase (email : String)
  | notFound
deriving DecidableEq

/-- Embeds the file-parsing loop of `get_admin_api_key`: strip the content,
split into lines, and take the stripped text after the "API Key:" and
"Email:" markers (later lines override earlier ones). -/
def parseKeyFile (content : List Char) : Option (List Char) × Option (List Char) :=
  (splitLines (stripChars content)).foldl
    (fun acc line =>
      if startsWithChars apiKeyMarker line then
        (acc.1, some (stripChars (removeAllChars apiKeyMarker line)))
      else if startsWithChars emailMarker line then
        (some (stripChars (removeAllChars emailMarker line)), acc.2)
      else acc)
    (none, none)

/-- Embeds the database fallback of `get_admin_api_key`: if the admin user
and one of its keys exist, answer with a placeholder (the plaintext is not
stored); otherwise 404. -/
def adminKeyFromDb (db? : Option DB) : AdminKeyResult :=
  match db? with
  | none => .notFound
  | some db =>
    match db.users.find? (fun u => u.email == "admin@forgeflow.local") with
    | none => .notFound
    | some admin_user =>
      match db.api_keys.find? (fun k => k.user_id == admin_user.id) with
      | none => .notFound
      | some _key => .fromDatabase admin_user.email

/-- Embeds `get_admin_api_key`: if a seed file is present and parses to a
non-empty key, re-serve the plaintext key from it; otherwise fall back to the
database placeholder or 404.  The file system is passed explicitly as the
content of the first existing candidate file, if any. -/
def get_admin_api_key (fileContent : Option (List Char)) (db? : Option DB) : AdminKeyResult :=
  match fileContent with
  | none => adminKeyFromDb db?
  | some content =>
    match parseKeyFile content with
    | (email, some api_key) =>
      match api_key with
      | [] => adminKeyFromDb db?
      | _ :: _ =>
        let e : List Char :=
          match email with
          | none => "admin@forgeflow.local".data
          | some [] => "admin@forgeflow.local".data
          | some (c :: cs) => c :: cs
        .fromFile (String.mk e) (String.mk api_key)
    | (_, none) => adminKeyFromDb db?

/-! ### Concrete stores used to instantiate the theorems -/

/-- A credential for the secret bytes [102, 102] ("ff"), owned by user id 1,
with no expiry and never used. -/
def orphanKey : ApiKey := ⟨1, 1, hash_api_key [102, 102], none, none⟩

/-- A store holding `orphanKey` but no users: the owning identity of the
credential is missing (an orphaned row). -/
def orphanDB : DB := ⟨[], [orphanKey], [], [], [], 1, 1⟩

/-- A user owning a valid credential. -/
def aliceUser : User := ⟨1, "alice@example.com"⟩

/-- The credential of `aliceUser` for the secret bytes [102, 102]. -/
def aliceKey : ApiKey := ⟨1, 1, hash_api_key [102, 102], none, none⟩

/-- A store where `aliceUser` owns `aliceKey`. -/
def aliceDB : DB := ⟨[aliceUser], [aliceKey], [], [], [], 1, 1⟩

/-- A user owning a project and a flow. -/
def bobUser : User := ⟨2, "bob@example.com"⟩

/-- Project id 1 owned by `bobUser`. -/
def bobProject : Project := ⟨1, 2, "P1"⟩

/-- Flow id 1 under `bobProject`. -/
def bobFlow : Flow := ⟨1, 1, "F1", none⟩

/-- A store where `bobUser` owns project 1 and flow 1, with no runs yet. -/
def bobDB : DB := ⟨[bobUser], [], [bobProject], [bobFlow], [], 2, 1⟩

/-- The run created by `run_flow 1 bobUser (some bobDB) 9`. -/
def bobRun : FlowRun := ⟨1, 1, .pending, 9, none, none⟩

/-- The store after `run_flow 1 bobUser (some bobDB) 9`. -/
def bobDB2 : DB := ⟨[bobUser], [], [bobProject], [bobFlow], [bobRun], 2, 2⟩

/-- A user who owns nothing in `bobDB`. -/
def eveUser : User := ⟨3, "eve@example.com"⟩

/-- A store with no projects and no flows at all. -/
def emptyDB : DB := ⟨[], [], [], [], [], 1, 1⟩

/-- A terminal (completed) run. -/
def completedRun : FlowRun := ⟨1, 1, .completed, 0, some 1, some 2⟩
/-! ### Helper lemmas about the credential scan -/

/-- The scan resolves to the first credential in iteration order that both
verifies by hash and passes the expiry check, stamped with the new
`last_used_at`. -/
theorem scanKeys_snd_eq (s : List Nat) (now : Nat) (ks : List ApiKey) :
    (scanKeys s now ks).2 =
      (ks.find? (isValidKey s now)).map (fun k => { k with last_used_at := some now }) := by
  induction ks with
  | nil => rfl
  | cons k rest ih =>
    cases hv : verify_api_key s k.key_hash <;> cases he : isExpired now k <;>
      simp [scanKeys, isValidKey, List.find?, hv, he, ih]

/-- When no credential is a valid match, the scan leaves the table unchanged. -/
theorem scanKeys_fst_of_none (s : List Nat) (now : Nat) (ks : List ApiKey)
    (h : (ks.find? (isValidKey s now)) = none) : (scanKeys s now ks).1 = ks := by
  induction ks with
  | nil => rfl
  | cons k rest ih =>
    rw [List.find?_cons] at h
    cases hvk : isValidKey s now k with
    | true => simp [hvk] at h
    | false =>
      simp only [hvk] at h
      have hrest := ih h
      cases hv : verify_api_key s k.key_hash <;> cases he : isExpired now k <;>
        simp_all [scanKeys, isValidKey, hv, he]

/-! ### Claim theorems -/

/-- C3: the verifier scans credentials in iteration order, treats an expired
hash match as non-matching and continues, and resolves to the first
credential that both matches by hash and passes the expiry check (the
`List.find?` of the validity predicate), never short-circuiting on a hash
match alone and never selecting a later valid match. -/
theorem verifier_first_valid_match (s : List Nat) (now : Nat) (ks : List ApiKey) :
    (scanKeys s now ks).2 =
      (ks.find? (isValidKey s now)).map (fun k => { k with last_used_at := some now }) :=
  scanKeys_snd_eq s now ks

/-- C6: hashing and verification apply the identical 60-byte truncation, so
verifying a secret against the hash produced from that same secret succeeds
for every byte length. -/
theorem verify_hash_roundtrip (s : List Nat) :
    verify_api_key s (hash_api_key s) = true := by
  simp [verify_api_key, hash_api_key, bcrypt_verify, bcrypt_hash]

/-- C9: a request with no bearer secret fails with the missing-credential
failure before the verifier runs: the result does not depend on the stored
credentials and the store is returned unchanged. -/
theorem missing_credential_fails_first (db? : Option DB) (now : Nat) :
    get_current_user none db? now = (AuthResult.missingCredential, db?) := rfl

/-- C10: secrets are distinguished only by the first 60 bytes of their UTF-8
encoding: when two secrets both exceed 60 bytes and agree on their first 60
bytes, the second verifies against the hash of the first. -/
theorem sixty_byte_prefix_collision (s1 s2 : List Nat)
    (h1 : s1.length > 60) (h2 : s2.length > 60)
    (hpre : s1.take 60 = s2.take 60) :
    verify_api_key s2 (hash_api_key s1) = true := by
  unfold verify_api_key hash_api_key bcrypt_verify bcrypt_hash truncate_key
  rw [if_pos h1, if_pos h2, hpre]
  simp

/-- C10 witness: a 61-byte secret of letters `a` and the same secret with its
last byte changed to `b` verify interchangeably. -/
theorem sixty_byte_prefix_collision_witness :
    (List.replicate 61 97).length > 60 ∧
    (List.replicate 60 97 ++ [98]).length > 60 ∧
    verify_api_key (List.replicate 60 97 ++ [98]) (hash_api_key (List.replicate 61 97)) = true :=
  ⟨by decide, by decide,
   sixty_byte_prefix_collision (List.replicate 61 97) (List.replicate 60 97 ++ [98])
     (by decide) (by decide) (by decide)⟩

/-- C1 counterexample: in `orphanDB` the presented secret verifies against a
stored credential whose expiry is unset, yet verification does not return the
owning identity — it fails with the 404 user-not-found error, because the
owning identity row is missing. -/
theorem auth_iff_counterexample :
    (∃ k ∈ orphanDB.api_keys,
       verify_api_key [102, 102] k.key_hash = true ∧ k.expires_at = none) ∧
    (get_current_user (some [102, 102]) (some orphanDB) 0).1 = AuthResult.userNotFound := by
  decide

/-- C1 amended: a valid match exists iff some stored credential verifies by
hash and is unexpired (expiry, when set, not in the past), and verification
returns identity `u` iff the first valid match in iteration order exists and
its owning identity is `u`; when that owning identity row is missing,
verification fails even though a valid match exists. -/
theorem auth_success_iff (s : List Nat) (db : DB) (now : Nat) :
    ((db.api_keys.find? (isValidKey s now)).isSome ↔
       ∃ k ∈ db.api_keys, isValidKey s now k = true) ∧
    (∀ u : User, (get_current_user (some s) (some db) now).1 = AuthResult.ok u ↔
       ∃ k, db.api_keys.find? (isValidKey s now) = some k ∧
         db.users.find? (fun v => v.id == k.user_id) = some u) := by
  constructor
  · exact List.find?_isSome
  · intro u
    simp only [get_current_user]
    rw [scanKeys_snd_eq]
    cases hfind : db.api_keys.find? (isValidKey s now) with
    | none => simp
    | some k =>
      simp only [Option.map_some']
      cases hu : db.users.find? (fun v => v.id == k.user_id) with
      | none => simp [hu]
      | some u0 => simp [hu]

/-- C1 witness: in `aliceDB` the secret resolves to `aliceUser`, by the
amended equivalence applied at a concrete store. -/
theorem auth_success_iff_witness :
    (get_current_user (some [102, 102]) (some aliceDB) 5).1 = AuthResult.ok aliceUser :=
  ((auth_success_iff [102, 102] aliceDB 5).2 aliceUser).mpr ⟨aliceKey, by decide, by decide⟩

/-- C2 counterexample: a hash-matched, unexpired credential whose owning
identity is missing is stamped and persisted even though verification fails:
in `orphanDB` the request fails with user-not-found, yet the stored
credential's `last_used_at` changes from `none` to `some 7`. -/
theorem no_mutation_on_failure_counterexample :
    orphanKey.last_used_at = none ∧
    get_current_user (some [102, 102]) (some orphanDB) 7 =
      (AuthResult.userNotFound,
       some { orphanDB with api_keys := [{ orphanKey with last_used_at := some 7 }] }) := by
  decide

/-- C2 amended: the store is unchanged whenever verification fails before a
credential is matched — missing bearer secret, unavailable store, or no
stored credential that verifies and is unexpired; a matched, unexpired
credential whose owning identity is missing, however, is stamped with
`last_used_at = now` before the failure is raised. -/
theorem no_mutation_on_pre_match_failure (cred : Option (List Nat)) (db? : Option DB) (now : Nat)
    (h : (get_current_user cred db? now).1 = AuthResult.missingCredential ∨
         (get_current_user cred db? now).1 = AuthResult.dbUnavailable ∨
         (get_current_user cred db? now).1 = AuthResult.invalidOrExpired) :
    (get_current_user cred db? now).2 = db? := by
  cases cred with
  | none => rfl
  | some s =>
    cases db? with
    | none => rfl
    | some db =>
      simp only [get_current_user] at h ⊢
      cases hm : (scanKeys s now db.api_keys).2 with
      | none => simp [hm]
      | some k =>
        cases hu : db.users.find? (fun v => v.id == k.user_id) <;>
          simp [hm, hu] at h

/-- C2 witness: presenting a non-matching secret to `orphanDB` fails with the
invalid-or-expired error and leaves the store unchanged. -/
theorem no_mutation_on_pre_match_failure_witness :
    (get_current_user (some [103]) (some orphanDB) 0).2 = some orphanDB :=
  no_mutation_on_pre_match_failure (some [103]) (some orphanDB) 0 (by decide)

/-- C5: when the autoincrement counter is ahead of every stored run id,
`run_flow` only ever appends: a successful call creates a new run with status
pending, null started/completed timestamps and `created_at = now`, whose id
differs from every stored run; the existing runs are untouched; and a second
successful call on the resulting store creates a run with yet another id. -/
theorem run_flow_append_only (fid : Nat) (u : User) (db : DB) (now now2 : Nat)
    (hfresh : ∀ r ∈ db.flow_runs, r.id < db.next_run_id) :
    ∀ run db2, run_flow fid u (some db) now = (.created run, some db2) →
      run.status = FlowRunStatus.pending ∧ run.started_at = none ∧
      run.completed_at = none ∧ run.created_at = now ∧ run.flow_id = fid ∧
      db2.flow_runs = db.flow_runs ++ [run] ∧
      (∀ r ∈ db.flow_runs, r.id ≠ run.id) ∧
      (∀ run2 db3, run_flow fid u (some db2) now2 = (.created run2, some db3) →
        run2.id ≠ run.id) := by
  intro run db2 h
  simp only [run_flow] at h
  cases hj : flowOwnedByUser db fid u.id with
  | none => rw [hj] at h; simp at h
  | some f =>
    rw [hj] at h
    simp only [Prod.mk.injEq, RunFlowResult.created.injEq, Option.some.injEq] at h
    obtain ⟨hrun, hdb2⟩ := h
    subst hrun
    subst hdb2
    refine ⟨rfl, rfl, rfl, rfl, rfl, rfl, ?_, ?_⟩
    · intro r hr
      exact Nat.ne_of_lt (hfresh r hr)
    · intro run2 db3 h2
      simp only [run_flow] at h2
      cases hj2 : flowOwnedByUser
          { db with flow_runs := db.flow_runs ++ [⟨db.next_run_id, fid, .pending, now, none, none⟩],
                    next_run_id := db.next_run_id + 1 } fid u.id with
      | none => rw [hj2] at h2; simp at h2
      | some f2 =>
        rw [hj2] at h2
        simp only [Prod.mk.injEq, RunFlowResult.created.injEq, Option.some.injEq] at h2
        obtain ⟨hrun2, _⟩ := h2
        subst hrun2
        simp

/-- C5 witness: running flow 1 of `bobDB` as `bobUser` at time 9 creates
`bobRun` in the pending state with null timestamps, appended to the store. -/
theorem run_flow_append_only_witness :
    bobRun.status = FlowRunStatus.pending ∧ bobRun.started_at = none ∧
    bobRun.completed_at = none ∧ bobRun.created_at = 9 ∧ bobRun.flow_id = 1 ∧
    bobDB2.flow_runs = bobDB.flow_runs ++ [bobRun] :=
  have h := run_flow_append_only 1 bobUser bobDB 9 10 (by decide) bobRun bobDB2 (by decide)
  ⟨h.1, h.2.1, h.2.2.1, h.2.2.2.1, h.2.2.2.2.1, h.2.2.2.2.2.1⟩

/-- C7: when no project with the requested id belongs to the requester, and
no project whose id the requested flow could resolve through belongs to the
requester, `create_flow` and `run_flow` both fail with the uniform
not-found-or-forbidden error, and the observable result is identical to a run
against a store where the project (or flow) does not exist at all. -/
theorem ownership_isolation (B : User) (db db0 : DB) (pid fid : Nat)
    (name : String) (desc : Option String) (now : Nat)
    (hP : ∀ p ∈ db.projects, p.id = pid → p.owner_id ≠ B.id)
    (hF : ∀ f ∈ db.flows, f.id = fid →
      ∀ p ∈ db.projects, p.id = f.project_id → p.owner_id ≠ B.id)
    (hP0 : ∀ p ∈ db0.projects, p.id ≠ pid)
    (hF0 : ∀ f ∈ db0.flows, f.id ≠ fid) :
    (create_flow pid name desc B (some db)).1 = CreateFlowResult.notFoundOrForbidden ∧
    (run_flow fid B (some db) now).1 = RunFlowResult.notFoundOrForbidden ∧
    (create_flow pid name desc B (some db)).1 = (create_flow pid name desc B (some db0)).1 ∧
    (run_flow fid B (some db) now).1 = (run_flow fid B (some db0) now).1 := by
  have e1 : db.projects.find? (fun p => p.id == pid && p.owner_id == B.id) = none := by
    rw [List.find?_eq_none]
    intro p hp hcon
    simp only [Bool.and_eq_true, beq_iff_eq] at hcon
    exact hP p hp hcon.1 hcon.2
  have e2 : flowOwnedByUser db fid B.id = none := by
    rw [flowOwnedByUser, List.find?_eq_none]
    intro f hf hcon
    simp only [Bool.and_eq_true, beq_iff_eq, List.any_eq_true] at hcon
    obtain ⟨hfid, p, hp, hpid, hpown⟩ := hcon
    exact hF f hf hfid p hp hpid hpown
  have e3 : db0.projects.find? (fun p => p.id == pid && p.owner_id == B.id) = none := by
    rw [List.find?_eq_none]
    intro p hp hcon
    simp only [Bool.and_eq_true, beq_iff_eq] at hcon
    exact hP0 p hp hcon.1
  have e4 : flowOwnedByUser db0 fid B.id = none := by
    rw [flowOwnedByUser, List.find?_eq_none]
    intro f hf hcon
    simp only [Bool.and_eq_true, beq_iff_eq, List.any_eq_true] at hcon
    exact hF0 f hf hcon.1
  refine ⟨?_, ?_, ?_, ?_⟩ <;> simp [create_flow, run_flow, e1, e2, e3, e4]

/-- C7 witness: `eveUser` owns nothing in `bobDB`; both operations against
project 1 and flow 1 fail with the uniform error and coincide with the
results against the empty store. -/
theorem ownership_isolation_witness :
    (create_flow 1 "F2" none eveUser (some bobDB)).1 = CreateFlowResult.notFoundOrForbidden ∧
    (run_flow 1 eveUser (some bobDB) 4).1 = RunFlowResult.notFoundOrForbidden ∧
    (create_flow 1 "F2" none eveUser (some bobDB)).1 =
      (create_flow 1 "F2" none eveUser (some emptyDB)).1 ∧
    (run_flow 1 eveUser (some bobDB) 4).1 = (run_flow 1 eveUser (some emptyDB) 4).1 :=
  ownership_isolation eveUser bobDB emptyDB 1 1 "F2" none 4
    (by decide) (by decide) (by decide) (by decide)

/-- C8: the run state machine admits exactly the transitions pending→running
and running→{completed, failed, cancelled}; a transition into running sets
`started_at = now`, a transition into a terminal state sets
`completed_at = now` and leaves `started_at` untouched, and any attempt to
leave a terminal state fails with the invalid-transition error, producing no
updated run. -/
theorem run_state_machine (r : FlowRun) (t : FlowRunStatus) (now : Nat) :
    ((∃ r2, applyTransition r t now = .ok r2) ↔
      ((r.status = FlowRunStatus.pending ∧ t = FlowRunStatus.running) ∨
       (r.status = FlowRunStatus.running ∧ t.isTerminal = true))) ∧
    (∀ r2, applyTransition r t now = .ok r2 →
      r2.status = t ∧
      (t = FlowRunStatus.running →
        r2.started_at = some now ∧ r2.completed_at = r.completed_at) ∧
      (t.isTerminal = true →
        r2.completed_at = some now ∧ r2.started_at = r.started_at)) ∧
    (r.status.isTerminal = true →
      applyTransition r t now = .error TransitionError.invalidTransition) := by
  obtain ⟨i, f, st, c, sa, co⟩ := r
  cases st <;> cases t <;>
    simp [applyTransition, FlowRunStatus.isTerminal]

/-- C8 witness: a direct attempt to transition a completed run back to
running fails with the invalid-transition error. -/
theorem run_state_machine_witness :
    applyTransition completedRun FlowRunStatus.running 3 =
      Except.error TransitionError.invalidTransition :=
  (run_state_machine completedRun FlowRunStatus.running 3).2.2 (by decide)

/-- C4: the system exposes an operation that re-serves a previously issued
plaintext secret: when the seed file written at bootstrap is present,
`get_admin_api_key` returns the plaintext admin key verbatim, contradicting
the single-shot-reveal guarantee. -/
theorem admin_plaintext_reserved :
    get_admin_api_key
        (some (seedKeyFileContent "admin@forgeflow.local" "ff_0011223344556677")) none =
      AdminKeyResult.fromFile "admin@forgeflow.local" "ff_0011223344556677" := by
  decide
